import Mathlib

/-!
Verification of the GibberWallet acoustic transport protocol core.

The JavaScript/TypeScript sources are shallowly embedded:

* JSON values (the payloads carried by protocol messages, and the wire text
  produced by `JSON.stringify` / consumed by `JSON.parse`) are modelled by the
  mutual inductive `Json` / `JsonList` / `JsonFields`.  JavaScript `undefined`
  is modelled as `Option.none` wherever a field may be absent.  JSON numbers
  are modelled as integers (the protocol only ever serializes integral chain
  ids, nonces and similar; IEEE floats are out of scope of the embedding).
* `JSON.stringify` is modelled by `Json.render` (insertion-ordered keys, no
  whitespace, the standard escape set) and `JSON.parse` by the fuel-based
  recursive-descent parser `parseVal` / `jsonParse` (whitespace tolerated,
  strings with the standard escapes; integral numbers).
* The `Message` class, `MessageProtocol` helpers, `SoundProtocol`,
  `OnlineClient` and `OfflineWallet` are translated function by function from
  `NodePoC/src` (message-protocol as asserted identical to
  `gibberweb/src/lib/message-protocol.ts` by `NodePoC/test-microphone.js`),
  with `uuidv4()` modelled by an explicit `fresh : String` argument and
  the external ggwave codec modelled as an abstract decode function.
-/

namespace GibberWallet

/-! ## JSON values -/

mutual

inductive Json where
  | null : Json
  | bool (b : Bool) : Json
  | num (n : Int) : Json
  | str (s : String) : Json
  | arr (elems : JsonList) : Json
  | obj (fields : JsonFields) : Json

inductive JsonList where
  | nil : JsonList
  | cons (hd : Json) (tl : JsonList) : JsonList

inductive JsonFields where
  | nil : JsonFields
  | cons (key : String) (val : Json) (tl : JsonFields) : JsonFields

end

mutual

/-- Size measure used as parser fuel bound. -/
def Json.size : Json → Nat
  | .null => 1
  | .bool _ => 1
  | .num _ => 1
  | .str _ => 1
  | .arr es => 1 + JsonList.size es
  | .obj fs => 1 + JsonFields.size fs

def JsonList.size : JsonList → Nat
  | .nil => 0
  | .cons e tl => 1 + Json.size e + JsonList.size tl

def JsonFields.size : JsonFields → Nat
  | .nil => 0
  | .cons _ v tl => 1 + Json.size v + JsonFields.size tl

end

/-! ## Character helpers -/

def isWsChar (c : Char) : Bool :=
  c == ' ' || c == '\t' || c == '\n' || c == '\r'

def isDigitChar (c : Char) : Bool :=
  48 ≤ c.toNat && c.toNat ≤ 57

def digitChar (n : Nat) : Char :=
  match n % 10 with
  | 0 => '0' | 1 => '1' | 2 => '2' | 3 => '3' | 4 => '4'
  | 5 => '5' | 6 => '6' | 7 => '7' | 8 => '8' | _ => '9'

def hexDigitChar (n : Nat) : Char :=
  match n % 16 with
  | 0 => '0' | 1 => '1' | 2 => '2' | 3 => '3' | 4 => '4'
  | 5 => '5' | 6 => '6' | 7 => '7' | 8 => '8' | 9 => '9'
  | 10 => 'a' | 11 => 'b' | 12 => 'c' | 13 => 'd' | 14 => 'e' | _ => 'f'

def hexVal (c : Char) : Option Nat :=
  if 48 ≤ c.toNat && c.toNat ≤ 57 then some (c.toNat - 48)
  else if 97 ≤ c.toNat && c.toNat ≤ 102 then some (c.toNat - 87)
  else if 65 ≤ c.toNat && c.toNat ≤ 70 then some (c.toNat - 55)
  else none

/-! ## Rendering (JSON.stringify) -/

/-- Decimal digits of `n`, most significant first; fuel-based so that the
kernel can evaluate it.  `renderNat` supplies adequate fuel. -/
def natDigits : Nat → Nat → List Char
  | 0, _ => []
  | f+1, n => if n < 10 then [digitChar n] else natDigits f (n / 10) ++ [digitChar (n % 10)]

def renderNat (n : Nat) : List Char := natDigits (n + 1) n

def renderInt : Int → List Char
  | .ofNat n => renderNat n
  | .negSucc m => '-' :: renderNat (m + 1)

/-- The escape `JSON.stringify` applies to a single character of a string:
quote and backslash escaped, the named control escapes, `\u00..` for the
remaining control characters, everything else verbatim. -/
def escChar (c : Char) : List Char :=
  if c = '"' then ['\\', '"']
  else if c = '\\' then ['\\', '\\']
  else if c = '\n' then ['\\', 'n']
  else if c = '\r' then ['\\', 'r']
  else if c = '\t' then ['\\', 't']
  else if c = '\x08' then ['\\', 'b']
  else if c = '\x0c' then ['\\', 'f']
  else if c.toNat < 32 then ['\\', 'u', '0', '0', hexDigitChar (c.toNat / 16), hexDigitChar (c.toNat % 16)]
  else [c]

def escList : List Char → List Char
  | [] => []
  | c :: cs => escChar c ++ escList cs

def renderString (s : String) : List Char :=
  '"' :: escList s.data ++ ['"']

mutual

/-- `JSON.stringify` on a JSON value: no whitespace, insertion key order. -/
def Json.render : Json → List Char
  | .null => ['n', 'u', 'l', 'l']
  | .bool b => if b then ['t', 'r', 'u', 'e'] else ['f', 'a', 'l', 's', 'e']
  | .num n => renderInt n
  | .str s => renderString s
  | .arr .nil => ['[', ']']
  | .arr (.cons e tl) => '[' :: JsonList.render (.cons e tl) ++ [']']
  | .obj .nil => ['{', '}']
  | .obj (.cons k v tl) => '{' :: JsonFields.render (.cons k v tl) ++ ['}']

def JsonList.render : JsonList → List Char
  | .nil => []
  | .cons e .nil => Json.render e
  | .cons e (.cons e' tl) => Json.render e ++ ',' :: JsonList.render (.cons e' tl)

def JsonFields.render : JsonFields → List Char
  | .nil => []
  | .cons k v .nil => renderString k ++ ':' :: Json.render v
  | .cons k v (.cons k' v' tl) =>
      renderString k ++ ':' :: Json.render v ++ ',' :: JsonFields.render (.cons k' v' tl)

end

/-! ## Parsing (JSON.parse) -/

def skipWs : List Char → List Char
  | [] => []
  | c :: cs => if isWsChar c then skipWs cs else c :: cs

def headIs (cs : List Char) (c : Char) : Bool :=
  match cs with
  | [] => false
  | x :: _ => x == c

def expectChars : List Char → List Char → Option (List Char)
  | [], cs => some cs
  | _ :: _, [] => none
  | p :: ps, c :: cs => if p == c then expectChars ps cs else none

/-- Body of a JSON string literal (after the opening quote): the decoded
characters and the remainder after the closing quote.  Escape handling
mirrors `JSON.parse`; `\u` escapes denoting UTF-16 surrogate halves are
outside the embedding (Lean `Char` is a scalar value) and rejected. -/
def parseStringChars : List Char → Option (List Char × List Char)
  | [] => none
  | c :: cs =>
    if c == '"' then some ([], cs)
    else if c == '\\' then
      match cs with
      | [] => none
      | e :: cs' =>
        if e == '"' then (parseStringChars cs').map (fun p => ('"' :: p.1, p.2))
        else if e == '\\' then (parseStringChars cs').map (fun p => ('\\' :: p.1, p.2))
        else if e == '/' then (parseStringChars cs').map (fun p => ('/' :: p.1, p.2))
        else if e == 'b' then (parseStringChars cs').map (fun p => ('\x08' :: p.1, p.2))
        else if e == 'f' then (parseStringChars cs').map (fun p => ('\x0c' :: p.1, p.2))
        else if e == 'n' then (parseStringChars cs').map (fun p => ('\n' :: p.1, p.2))
        else if e == 'r' then (parseStringChars cs').map (fun p => ('\r' :: p.1, p.2))
        else if e == 't' then (parseStringChars cs').map (fun p => ('\t' :: p.1, p.2))
        else if e == 'u' then
          match cs' with
          | h1 :: h2 :: h3 :: h4 :: cs'' =>
            match hexVal h1, hexVal h2, hexVal h3, hexVal h4 with
            | some a, some b, some x, some d =>
              let code := ((a * 16 + b) * 16 + x) * 16 + d
              if code < 55296 then
                (parseStringChars cs'').map (fun p => (Char.ofNat code :: p.1, p.2))
              else none
            | _, _, _, _ => none
          | _ => none
        else none
    else if c.toNat < 32 then none
    else (parseStringChars cs).map (fun p => (c :: p.1, p.2))

def parseStringBody (cs : List Char) : Option (String × List Char) :=
  (parseStringChars cs).map (fun p => (String.mk p.1, p.2))

def takeDigits : List Char → List Char × List Char
  | [] => ([], [])
  | c :: cs =>
    if isDigitChar c then
      let p := takeDigits cs
      (c :: p.1, p.2)
    else ([], c :: cs)

def digitsVal : Nat → List Char → Nat
  | acc, [] => acc
  | acc, c :: cs => digitsVal (acc * 10 + (c.toNat - 48)) cs

def parseNatNum (cs : List Char) : Option (Nat × List Char) :=
  match takeDigits cs with
  | ([], _) => none
  | (ds, r) => some (digitsVal 0 ds, r)

mutual

/-- Recursive-descent JSON value parser (fuel-based; `jsonParse` supplies
adequate fuel).  Integral numbers only — see the file comment. -/
def parseVal : Nat → List Char → Option (Json × List Char)
  | 0, _ => none
  | f+1, cs =>
    match skipWs cs with
    | [] => none
    | c :: rest =>
      if c == 'n' then (expectChars ['u', 'l', 'l'] rest).map (fun r => (Json.null, r))
      else if c == 't' then (expectChars ['r', 'u', 'e'] rest).map (fun r => (Json.bool true, r))
      else if c == 'f' then (expectChars ['a', 'l', 's', 'e'] rest).map (fun r => (Json.bool false, r))
      else if c == '"' then (parseStringBody rest).map (fun p => (Json.str p.1, p.2))
      else if c == '[' then
        let r := skipWs rest
        if headIs r ']' then some (Json.arr .nil, r.tail)
        else (parseElems f r).map (fun p => (Json.arr p.1, p.2))
      else if c == '{' then
        let r := skipWs rest
        if headIs r '}' then some (Json.obj .nil, r.tail)
        else (parseMembers f r).map (fun p => (Json.obj p.1, p.2))
      else if c == '-' then (parseNatNum rest).map (fun p => (Json.num (-(p.1 : Int)), p.2))
      else if isDigitChar c then (parseNatNum (c :: rest)).map (fun p => (Json.num (p.1 : Int), p.2))
      else none

/-- One-or-more comma-separated array elements followed by `]`. -/
def parseElems : Nat → List Char → Option (JsonList × List Char)
  | 0, _ => none
  | f+1, cs =>
    match parseVal f cs with
    | none => none
    | some (v, r) =>
      let r' := skipWs r
      if headIs r' ',' then
        (parseElems f r'.tail).map (fun p => (JsonList.cons v p.1, p.2))
      else if headIs r' ']' then some (JsonList.cons v .nil, r'.tail)
      else none

/-- One-or-more comma-separated object members followed by `}`. -/
def parseMembers : Nat → List Char → Option (JsonFields × List Char)
  | 0, _ => none
  | f+1, cs =>
    let c0 := skipWs cs
    if headIs c0 '"' then
      match parseStringBody c0.tail with
      | none => none
      | some (k, r1) =>
        let r2 := skipWs r1
        if headIs r2 ':' then
          match parseVal f r2.tail with
          | none => none
          | some (v, r3) =>
            let r4 := skipWs r3
            if headIs r4 ',' then
              (parseMembers f r4.tail).map (fun p => (JsonFields.cons k v p.1, p.2))
            else if headIs r4 '}' then some (JsonFields.cons k v .nil, r4.tail)
            else none
        else none
    else none

end

/-- `message.type === s` for a string constant `s` (strict equality against
a string succeeds only on an identical string value). -/
def typeIs (t : Option Json) (s : String) : Bool :=
  match t with
  | some (.str x) => x == s
  | _ => false

/-- `JSON.parse`: parse one value, allow trailing whitespace only. -/
def jsonParse (s : String) : Option Json :=
  match parseVal (s.data.length + 1) s.data with
  | some (j, rest) => if skipWs rest = [] then some j else none
  | none => none

/-! ## JavaScript value semantics

A JavaScript value that may be `undefined` is modelled as `Option Json`
(`none` = `undefined`). -/

/-- JavaScript truthiness: `undefined`, `null`, `false`, `0` and `""` are
falsy, everything else truthy (`NaN`/`-0` do not arise in the model). -/
def jsTruthy : Option Json → Bool
  | none => false
  | some .null => false
  | some (.bool b) => b
  | some (.num n) => !(n == 0)
  | some (.str s) => !(s == "")
  | some (.arr _) => true
  | some (.obj _) => true

/-- Property lookup in an object built by `JSON.parse`: with duplicate keys
the later assignment wins, so the last matching binding is returned. -/
def jsGetFields : JsonFields → String → Option Json
  | .nil, _ => none
  | .cons k v tl, key =>
    match jsGetFields tl key with
    | some r => some r
    | none => if k = key then some v else none

/-- `data.k` for a defined, non-null `data`: objects look the key up,
any other primitive yields `undefined`. -/
def jsGet : Json → String → Option Json
  | .obj fs, k => jsGetFields fs k
  | _, _ => none

/-- `v.k` where `v` may be any JavaScript value: member access on
`undefined` or `null` throws a `TypeError` (modelled as `Except.error`). -/
def jsProp : Option Json → String → Except Unit (Option Json)
  | none, _ => .error ()
  | some .null, _ => .error ()
  | some (.obj fs), k => .ok (jsGetFields fs k)
  | some _, _ => .ok none

mutual

/-- `String(v)` for a defined JavaScript value (used by template literals). -/
def jsToStringVal : Json → String
  | .null => "null"
  | .bool true => "true"
  | .bool false => "false"
  | .num n => String.mk (renderInt n)
  | .str s => s
  | .arr es => jsArrJoin es
  | .obj _ => "[object Object]"

/-- `Array.prototype.toString`: elements stringified (with `null` becoming
the empty string) and joined by commas. -/
def jsArrJoin : JsonList → String
  | .nil => ""
  | .cons e .nil => jsItemString e
  | .cons e (.cons e' tl) => jsItemString e ++ "," ++ jsArrJoin (.cons e' tl)

def jsItemString : Json → String
  | .null => ""
  | .bool b => jsToStringVal (.bool b)
  | .num n => jsToStringVal (.num n)
  | .str s => s
  | .arr es => jsArrJoin es
  | .obj fs => jsToStringVal (.obj fs)

end

/-- Template-literal interpolation `${v}` of a possibly-undefined value. -/
def jsToString : Option Json → String
  | none => "undefined"
  | some j => jsToStringVal j

/-! ## Message (src/message-protocol.js / message-protocol.ts)

`class Message { constructor(version, type, payload, id = null) { ...;
this.id = id || uuidv4(); } }` — the four fields hold arbitrary JavaScript
values (`Option Json`); the fresh uuid is passed in explicitly. -/

structure Message where
  version : Option Json
  type : Option Json
  payload : Option Json
  id : Option Json

/-- The `Message` constructor: `this.id = id || uuidv4()`. -/
def Message.make (version type payload id : Option Json) (fresh : String) : Message :=
  { version := version, type := type, payload := payload,
    id := if jsTruthy id then id else some (.str fresh) }

/-- Append a key only when its value is defined (`JSON.stringify` drops
keys whose value is `undefined`). -/
def optField (k : String) (v : Option Json) (tl : JsonFields) : JsonFields :=
  match v with
  | none => tl
  | some j => .cons k j tl

/-- The object literal `{version, type, payload, id}` that `toJSON`
stringifies, in insertion order. -/
def Message.toJSONValue (m : Message) : Json :=
  .obj (optField "version" m.version
    (optField "type" m.type
      (optField "payload" m.payload
        (optField "id" m.id .nil))))

/-- `Message.toJSON(): string` — `JSON.stringify({version, type, payload, id})`. -/
def Message.toJSON (m : Message) : String :=
  String.mk (Json.render m.toJSONValue)

/-- `Message.fromJSON(jsonStr)`:
`const data = JSON.parse(jsonStr); return new Message(data.version,
data.type, data.payload, data.id);` — `none` models the thrown exception
(`SyntaxError` from `JSON.parse`, or the `TypeError` raised by reading
`data.version` when the parsed value is `null`). -/
def Message.fromJSON (s : String) (fresh : String) : Option Message :=
  match jsonParse s with
  | none => none
  | some .null => none
  | some data =>
      some (Message.make (jsGet data "version") (jsGet data "type")
        (jsGet data "payload") (jsGet data "id") fresh)

/-! ## MessageProtocol (connect-variant message kinds, as exercised by
`NodePoC/test-microphone.js` and defined in
`gibberweb/src/lib/message-protocol.ts`) -/

namespace MessageProtocol

def PROTOCOL_VERSION : String := "1.0"

def versionJson : Option Json := some (.str PROTOCOL_VERSION)

/-- `createConnect()`: `new Message(PROTOCOL_VERSION, 'connect', {})`. -/
def createConnect (fresh : String) : Message :=
  Message.make versionJson (some (.str "connect")) (some (.obj .nil)) none fresh

/-- `createConnectResponse(address, connectId)`: payload
`{address, received_id: connectId}`. -/
def createConnectResponse (address : String) (connectId : Option Json) (fresh : String) : Message :=
  Message.make versionJson (some (.str "connect_response"))
    (some (.obj (.cons "address" (.str address) (optField "received_id" connectId .nil))))
    none fresh

/-- `createTxResponse(signedTx, txHash)`: payload
`{signedTransaction: {raw, hash}}`. -/
def createTxResponse (signedTx txHash : String) (fresh : String) : Message :=
  Message.make versionJson (some (.str "tx_response"))
    (some (.obj (.cons "signedTransaction"
      (.obj (.cons "raw" (.str signedTx) (.cons "hash" (.str txHash) .nil))) .nil)))
    none fresh

/-- `createError(message, receivedId = null)`: payload `{message}` with
`received_id` added only when `receivedId` is truthy. -/
def createError (message : String) (receivedId : Option Json) (fresh : String) : Message :=
  Message.make versionJson (some (.str "error"))
    (some (.obj (.cons "message" (.str message)
      (if jsTruthy receivedId then optField "received_id" receivedId .nil else .nil))))
    none fresh

/-- `validateVersion(message)`: `message.version === PROTOCOL_VERSION`
(strict equality against the string '1.0'). -/
def validateVersion (m : Message) : Bool :=
  match m.version with
  | some (.str s) => s == PROTOCOL_VERSION
  | _ => false

end MessageProtocol

/-! ## SoundProtocol (NodePoC/src/sound-protocol.js)

Audio samples are abstract (`Int`, the int16 capture values; their
magnitudes are irrelevant to the buffer lifecycle).  The ggwave codec is an
external collaborator, modelled as a `decode : List Int → Option String`
argument (`none` = no/empty decode output or a decode exception, `some s`
= nonempty decoded bytes, UTF-8 decoded to `s`).  Callbacks are identified
by `Nat` labels. -/

structure SoundState where
  isListening : Bool
  receivedCallback : Option Nat
  isInitialized : Bool
  ggwaveInstance : Option Nat
  audioBuffer : List Int
  recording : Bool

namespace SoundProtocol

/-- `this.sampleRate = 48000` (ggwave default). -/
def sampleRate : Nat := 48000

/-- `processAudioBuffer()`: attempt a decode over the accumulated buffer.
Returns the updated state and the message delivered to `receivedCallback`
(if any).  Straight translation:
guard (uninitialized keeps the buffer, missing instance/callback clears it);
decode; on nonempty decode, `JSON.parse` + `Message.fromJSON` and on
success invoke the callback, clear the buffer and return early; otherwise
fall through to the sliding-window trim
(`if (len > sampleRate * 2) buffer = buffer.slice(-sampleRate)`). -/
def processAudioBuffer (decode : List Int → Option String) (fresh : String)
    (st : SoundState) : SoundState × Option Message :=
  if !st.isInitialized then
    (st, none)
  else if st.ggwaveInstance = none ∨ st.receivedCallback = none then
    ({ st with audioBuffer := [] }, none)
  else
    let trimmed :=
      if sampleRate * 2 < st.audioBuffer.length then
        { st with audioBuffer := st.audioBuffer.drop (st.audioBuffer.length - sampleRate) }
      else st
    match decode st.audioBuffer with
    | some msgStr =>
      match Message.fromJSON msgStr fresh with
      | some m => ({ st with audioBuffer := [] }, some m)
      | none => (trimmed, none)
    | none => (trimmed, none)

/-- The microphone data handler installed by `startRecording()`: append the
chunk, then run `processAudioBuffer` once at least a quarter second of
samples (`sampleRate / 4`) has accumulated. -/
def onData (decode : List Int → Option String) (fresh : String)
    (st : SoundState) (chunk : List Int) : SoundState × Option Message :=
  let st' := { st with audioBuffer := st.audioBuffer ++ chunk }
  if sampleRate / 4 ≤ st'.audioBuffer.length then
    processAudioBuffer decode fresh st'
  else (st', none)

/-- Feed a stream of capture chunks through the data handler. -/
def runChunks (decode : List Int → Option String) (fresh : String) :
    SoundState → List (List Int) → SoundState
  | st, [] => st
  | st, chunk :: rest => runChunks decode fresh (onData decode fresh st chunk).1 rest

/-- Result of `sendMessage`: whether the waveform was played to completion
and the boolean the promise resolves with. -/
structure SendResult where
  played : Bool
  returned : Bool

/-- `sendMessage(message)` after the bounded initialization wait:
with no ggwave instance it logs `Would send: ...` and returns `true`
(simulation mode); otherwise it encodes and plays, returning `true` after
`playAudio` completes and `false` if encoding or playback throws. -/
def sendMessage (st : SoundState) (encodeOk playOk : Bool) : SendResult :=
  match st.ggwaveInstance with
  | none => { played := false, returned := true }
  | some _ =>
    if encodeOk then
      if playOk then { played := true, returned := true }
      else { played := false, returned := false }
    else { played := false, returned := false }

/-- `startListening(callback)`: an early return when already listening;
otherwise install the callback, raise the listening flag, reset the buffer
and (when the codec is ready) start the capture loop. -/
def startListening (st : SoundState) (cb : Nat) : SoundState :=
  if st.isListening then st
  else
    let st' := { st with receivedCallback := some cb, isListening := true, audioBuffer := [] }
    if st'.isInitialized && st'.ggwaveInstance.isSome then
      { st' with recording := true }
    else st'

end SoundProtocol

/-! ### waitForMessage (NodePoC/src/sound-protocol.js lines 648-673)

`waitForMessage(expectedType, timeout)` saves `this.receivedCallback`,
installs a filtering closure, and races it against a timer.  The mutable
`receivedCallback` cell, the pending promise and the timer are modelled
explicitly; incoming decoded messages and the timer expiry are the
events. -/

inductive ActiveCallback where
  | original
  | waiter (expected : String)

structure WaitState where
  cb : ActiveCallback
  originalPresent : Bool
  timerActive : Bool
  resolved : Option (Option Message)
  forwarded : List Message

/-- State right after `waitForMessage(expected, _)` installs its closure. -/
def waitForMessageStart (expected : String) (originalPresent : Bool) : WaitState :=
  { cb := .waiter expected, originalPresent := originalPresent,
    timerActive := true, resolved := none, forwarded := [] }

/-- A decoded message is handed to the current `receivedCallback`.
The waiter closure: on a type match, clear the timer, restore the original
callback and resolve with the message; otherwise forward to the original
callback when one exists.  After restoration the original callback receives
messages directly. -/
def deliver (ws : WaitState) (m : Message) : WaitState :=
  match ws.cb with
  | .original =>
    if ws.originalPresent then { ws with forwarded := ws.forwarded ++ [m] } else ws
  | .waiter expected =>
    if typeIs m.type expected then
      { ws with cb := .original, timerActive := false, resolved := some (some m) }
    else if ws.originalPresent then { ws with forwarded := ws.forwarded ++ [m] }
    else ws

/-- The `setTimeout` body: restore the original callback and resolve with
`null`; a cleared timer (`clearTimeout` on match) never fires. -/
def fireTimeout (ws : WaitState) : WaitState :=
  if ws.timerActive then
    { ws with cb := .original, timerActive := false, resolved := some none }
  else ws

inductive WaitEvent where
  | msg (m : Message)
  | timeout

def runWait : WaitState → List WaitEvent → WaitState
  | ws, [] => ws
  | ws, .msg m :: evs => runWait (deliver ws m) evs
  | ws, .timeout :: evs => runWait (fireTimeout ws) evs

/-! ## OnlineClient (NodePoC/src/online-client.js) -/

structure ConnectOutcome where
  sentMessages : List Message
  connectedWalletAddress : Option (Option Json)
  success : Bool

namespace OnlineClient

/-- `connectToWallet()` (lines 151-185), parameterized by the channel
behaviour: `sendOk` is what `sendMessage(connect)` resolves with, and `ack`
is what `waitForMessage(CONNECT_RESPONSE, 10000)` resolves with (`none` =
timeout, i.e. no connect response ever decoded).  The `retries` value
stored by the `SoundProtocol` constructor is carried as an argument to
record that no code path consults it: there is no retry loop — a single
`createConnect()` message is handed to `sendMessage`, `waitForMessage` is
awaited once, and on `null` the method logs and returns `false`. -/
def connectToWallet (retries : Nat) (fresh : String) (sendOk : Bool)
    (ack : Option Message) : ConnectOutcome :=
  let _ := retries
  let connect := MessageProtocol.createConnect fresh
  let sent := [connect]
  if !sendOk then
    { sentMessages := sent, connectedWalletAddress := none, success := false }
  else
    match ack with
    | none => { sentMessages := sent, connectedWalletAddress := none, success := false }
    | some resp =>
      match jsProp resp.payload "address" with
      | .error _ => { sentMessages := sent, connectedWalletAddress := none, success := false }
      | .ok addr => { sentMessages := sent, connectedWalletAddress := some addr, success := true }

/-- Number of `connect`-typed envelopes handed to `sendMessage`. -/
def connectCount (out : ConnectOutcome) : Nat :=
  (out.sentMessages.filter (fun m => typeIs m.type "connect")).length

end OnlineClient

/-! ## CryptoUtils (NodePoC/src/crypto-utils.js) -/

namespace CryptoUtils

/-- `parseInt(s, radix)` for radix 10/16: trim leading whitespace, optional
sign, optional `0x`/`0X` for radix 16, then the maximal digit run; an empty
run yields `NaN` (modelled as `none`). -/
def jsParseInt (s : String) (radix : Nat) : Option Int :=
  let cs := s.data.dropWhile (fun c => isWsChar c)
  let signed : Bool × List Char :=
    match cs with
    | '-' :: tl => (true, tl)
    | '+' :: tl => (false, tl)
    | _ => (false, cs)
  let body : List Char :=
    if radix = 16 then
      match signed.2 with
      | '0' :: 'x' :: tl => tl
      | '0' :: 'X' :: tl => tl
      | _ => signed.2
    else signed.2
  let ds := body.takeWhile (fun c => ((hexVal c).map (fun v => decide (v < radix))).getD false)
  if ds = [] then none
  else
    let n := ds.foldl (fun acc c => acc * radix + ((hexVal c).getD 0)) 0
    some (if signed.1 then -(n : Int) else (n : Int))

/-- `parseHexToNumber(hexString)`: a number is returned as is, a string is
parsed (`0x`-prefixed as hex, otherwise decimal), and anything else —
including `undefined`, `null`, booleans, arrays and objects — yields `0`. -/
def parseHexToNumber (v : Option Json) : Option Int :=
  match v with
  | some (.num n) => some n
  | some (.str s) => if s.startsWith "0x" then jsParseInt s 16 else jsParseInt s 10
  | _ => some 0

end CryptoUtils

/-! ## OfflineWallet (NodePoC/src/offline-wallet.js) -/

/-- The transaction record assembled by `handleTransactionRequest` (numeric
fields are JavaScript numbers: `none` models `NaN`; `data = none` models
the ETH-transfer record, which carries no `data` key). -/
structure EthTx where
  /-- the JavaScript field `to` (a Lean keyword, hence the longer name) -/
  toAddress : Option Json
  value : Option Int
  gasLimit : Option Int
  gasPrice : Option Int
  nonce : Option Int
  chainId : Option Int
  data : Option Json
  txType : Nat

/-- `data && data !== '0x'`: the contract-interaction branch condition. -/
def isContractCall (data : Option Json) : Bool :=
  jsTruthy data &&
    !(match data with
      | some (.str s) => s == "0x"
      | _ => false)

namespace OfflineWallet

/-- The pure head of `handleTransactionRequest` (lines 102-138): read
`message.payload.transaction`, convert the numeric fields with
`parseHexToNumber`, and build either the contract-interaction record or
`createEthTransaction(...)`.  A thrown `TypeError` (member access on
`undefined`/`null`) is the `Except.error` case, caught by the surrounding
`try`. -/
def buildTxFromRequest (message : Message) : Except Unit (EthTx × String) := do
  let txData ← jsProp message.payload "transaction"
  let chainId := CryptoUtils.parseHexToNumber (← jsProp txData "chainId")
  let nonce := CryptoUtils.parseHexToNumber (← jsProp txData "nonce")
  let gasPrice := CryptoUtils.parseHexToNumber (← jsProp txData "gasPrice")
  let gasLimit := CryptoUtils.parseHexToNumber (← jsProp txData "gasLimit")
  let toVal ← jsProp txData "to"
  let value := CryptoUtils.parseHexToNumber (← jsProp txData "value")
  let data ← jsProp txData "data"
  if isContractCall data then
    .ok ({ toAddress := toVal, value := value, gasLimit := gasLimit, gasPrice := gasPrice,
           nonce := nonce, chainId := chainId, data := data, txType := 0 },
         "ERC-20/Contract")
  else
    .ok ({ toAddress := toVal, value := value, gasLimit := gasLimit, gasPrice := gasPrice,
           nonce := nonce, chainId := chainId, data := none, txType := 0 },
         "ETH Transfer")

/-- What one invocation of `handleMessage` does, at the level of replies
handed to `sound.sendMessage`.  `txProcessed tx kind reply` records that the
transaction was displayed (`kind` is the banner text) and the user prompted,
with `reply` the message eventually sent for the user answer `approve`. -/
inductive HandlerStep where
  | versionError (reply : Message)
  | connectReply (reply : Message)
  | txProcessed (tx : EthTx) (kind : String) (reply : Message)
  | txFailed (reply : Message)
  | ignoredUnknown

def HandlerStep.replySent : HandlerStep → Option Message
  | .versionError r => some r
  | .connectReply r => some r
  | .txProcessed _ _ r => some r
  | .txFailed r => some r
  | .ignoredUnknown => none

/-- `handleMessage(message)` (lines 63-87) together with the reply produced
by `handleConnect`/`handleTransactionRequest`: version gate first, then the
type switch.  `approve` is the user's confirmation answer, `sign` the
external ethers signer (`(raw, hash)`), `errText` the runtime message of a
caught exception, `fresh` the uuid for the reply envelope.  Note the
signature: no session state exists — nothing records a pending request. -/
def handleMessage (walletAddress : String) (message : Message) (approve : Bool)
    (sign : EthTx → String × String) (errText : String) (fresh : String) : HandlerStep :=
  if !MessageProtocol.validateVersion message then
    .versionError (MessageProtocol.createError
      ("Unsupported protocol version: " ++ jsToString message.version) message.id fresh)
  else if typeIs message.type "connect" then
    .connectReply (MessageProtocol.createConnectResponse walletAddress message.id fresh)
  else if typeIs message.type "tx_request" then
    match buildTxFromRequest message with
    | .error _ =>
      .txFailed (MessageProtocol.createError
        ("Transaction processing failed: " ++ errText) message.id fresh)
    | .ok (tx, kind) =>
      if approve then
        .txProcessed tx kind (MessageProtocol.createTxResponse (sign tx).1 (sign tx).2 fresh)
      else
        .txProcessed tx kind (MessageProtocol.createError
          "Transaction rejected by user" message.id fresh)
  else
    .ignoredUnknown

end OfflineWallet

/-- An `error`-typed envelope whose payload message is exactly `"Busy"`. -/
def isBusyError (m : Message) : Bool :=
  (match m.type with
   | some (.str t) => t == "error"
   | _ => false)
  &&
  (match m.payload with
   | some (.obj fs) =>
     match jsGetFields fs "message" with
     | some (.str s) => s == "Busy"
     | _ => false
   | _ => false)

/-- Whether a character list starts with a decimal digit (used to state that
a number's rendering is followed by a non-digit, so maximal munch stops). -/
def headIsDigit : List Char → Bool
  | [] => false
  | c :: _ => isDigitChar c

/-! ## Concrete protocol values (inputs for instantiating the theorems) -/

/-- The transaction descriptor of a well-formed `tx_request`, as produced by
`MessageProtocol.createTxRequest(1, to, 1, '0x', 0, gasPrice, 21000)`. -/
def exampleTransaction : JsonFields :=
  .cons "chainId" (.num 1)
    (.cons "nonce" (.str "0x0")
      (.cons "gasPrice" (.str "0x09184e72a000")
        (.cons "gasLimit" (.str "0x5208")
          (.cons "to" (.str "0x7E5F4552091A69125d5DfCb7B8C2659029395Bdf")
            (.cons "value" (.str "0x1")
              (.cons "data" (.str "0x") .nil))))))

def exampleTxRequest : Message :=
  { version := some (.str "1.0"), type := some (.str "tx_request"),
    payload := some (.obj (.cons "transaction" (.obj exampleTransaction) .nil)),
    id := some (.str "req-1") }

/-- A second transaction request, decoded while the first one is still
awaiting the user's approval. -/
def secondTxRequest : Message :=
  { version := some (.str "1.0"), type := some (.str "tx_request"),
    payload := some (.obj (.cons "transaction" (.obj exampleTransaction) .nil)),
    id := some (.str "req-2") }

/-- A transaction descriptor that omits every numeric field. -/
def bareTransaction : JsonFields :=
  .cons "to" (.str "0x7E5F4552091A69125d5DfCb7B8C2659029395Bdf")
    (.cons "data" (.str "0x") .nil)

def bareTxRequest : Message :=
  { version := some (.str "1.0"), type := some (.str "tx_request"),
    payload := some (.obj (.cons "transaction" (.obj bareTransaction) .nil)),
    id := some (.str "req-3") }

/-- Wire text of an envelope missing `version`, `payload` and `id`. -/
def missingFieldsText : String := "\x7b\"type\":\"tx_request\"\x7d"

def missingFieldsValue : Json := .obj (.cons "type" (.str "tx_request") .nil)

/-- Wire text of a structurally well-formed envelope with an unsupported
protocol version. -/
def versionTwoText : String :=
  "\x7b\"version\":\"2.0\",\"type\":\"connect\",\"payload\":\x7b\x7d,\"id\":\"x1\"\x7d"

/-- The external ethers signer, abstracted. -/
def exampleSigner : EthTx → String × String :=
  fun _ => ("0xf86c8085e8d4a51000", "0xdeadbeef")

/-- A listening state whose codec finished initializing. -/
def readySoundState : SoundState :=
  { isListening := true, receivedCallback := some 0, isInitialized := true,
    ggwaveInstance := some 1, audioBuffer := [], recording := true }

def bufferedSoundState : SoundState :=
  { readySoundState with audioBuffer := [5, 6, 7] }

/-- A state whose codec never initialized (no ggwave instance). -/
def codeclessSoundState : SoundState :=
  { isListening := false, receivedCallback := none, isInitialized := false,
    ggwaveInstance := none, audioBuffer := [], recording := false }

/-- Codec ready but nobody listening yet. -/
def idleSoundState : SoundState :=
  { isListening := false, receivedCallback := none, isInitialized := true,
    ggwaveInstance := some 1, audioBuffer := [], recording := false }

/-- A decoder modelling pure noise: no window ever decodes. -/
def noDecode : List Int → Option String := fun _ => none

/-- A decoder that decodes every window to the example request's wire text. -/
def toneDecode : List Int → Option String :=
  fun _ => some (Message.toJSON exampleTxRequest)

/-- Unrelated chatter observed during a wait (an `error` envelope). -/
def strayError : Message := MessageProtocol.createError "nope" none "e9"

def exampleConnectResponse : Message :=
  MessageProtocol.createConnectResponse "0xW" (some (.str "c1")) "r7"

/-! # Theorems -/

/-! ## Character and digit lemmas -/

theorem skipWs_cons (c : Char) (cs : List Char) (h : isWsChar c = false) :
    skipWs (c :: cs) = c :: cs := by
  simp [skipWs, h]

theorem expectChars_append (ps rest : List Char) :
    expectChars ps (ps ++ rest) = some rest := by
  induction ps with
  | nil => rfl
  | cons p ps ih => simp [expectChars, ih]

theorem char_beq_false_of_isDigitChar {c : Char} (t : Char)
    (ht : isDigitChar t = false) (hc : isDigitChar c = true) : (c == t) = false := by
  cases h : c == t with
  | false => rfl
  | true =>
    have : c = t := by exact beq_iff_eq.mp h
    subst this
    rw [hc] at ht
    exact absurd ht (by simp)

theorem isWsChar_false_of_isDigitChar {c : Char} (hc : isDigitChar c = true) :
    isWsChar c = false := by
  simp only [isWsChar,
    char_beq_false_of_isDigitChar ' ' (by decide) hc,
    char_beq_false_of_isDigitChar '\t' (by decide) hc,
    char_beq_false_of_isDigitChar '\n' (by decide) hc,
    char_beq_false_of_isDigitChar '\r' (by decide) hc,
    Bool.or_self, Bool.or_false]

theorem digitChar_toNat (n : Nat) : (digitChar n).toNat = 48 + n % 10 := by
  unfold digitChar
  have h : n % 10 < 10 := Nat.mod_lt _ (by norm_num)
  set m := n % 10 with hm
  interval_cases m <;> rfl

theorem isDigitChar_digitChar (n : Nat) : isDigitChar (digitChar n) = true := by
  have h : n % 10 < 10 := Nat.mod_lt _ (by norm_num)
  simp only [isDigitChar, digitChar_toNat, Bool.and_eq_true, decide_eq_true_eq]
  omega

theorem hexVal_hexDigitChar (m : Nat) (h : m < 16) :
    hexVal (hexDigitChar m) = some m := by
  unfold hexDigitChar
  rw [Nat.mod_eq_of_lt h]
  interval_cases m <;> rfl

/-! ## Decimal rendering and parsing -/

theorem natDigits_ne_nil (f n : Nat) : natDigits (f + 1) n ≠ [] := by
  unfold natDigits
  by_cases h : n < 10 <;> simp [h]

theorem natDigits_all_digits (f : Nat) :
    ∀ n c, c ∈ natDigits f n → isDigitChar c = true := by
  induction f with
  | zero => intro n c hc; simp [natDigits] at hc
  | succ f ih =>
    intro n c hc
    unfold natDigits at hc
    by_cases h : n < 10
    · simp [h] at hc
      subst hc
      exact isDigitChar_digitChar n
    · simp [h, List.mem_append] at hc
      rcases hc with hc | hc
      · exact ih _ _ hc
      · subst hc
        exact isDigitChar_digitChar (n % 10)

theorem natDigits_fuel (n : Nat) : ∀ f g, n < f → n < g →
    natDigits f n = natDigits g n := by
  induction n using Nat.strong_induction_on with
  | _ n ih =>
    intro f g hf hg
    obtain ⟨f', rfl⟩ : ∃ f', f = f' + 1 := ⟨f - 1, by omega⟩
    obtain ⟨g', rfl⟩ : ∃ g', g = g' + 1 := ⟨g - 1, by omega⟩
    unfold natDigits
    by_cases h : n < 10
    · simp [h]
    · have hdiv : n / 10 < n := Nat.div_lt_self (by omega) (by norm_num)
      simp only [h, if_false]
      rw [ih (n / 10) hdiv f' g' (by omega) (by omega)]

theorem digitsVal_nil (acc : Nat) : digitsVal acc [] = acc := rfl

theorem digitsVal_cons (acc : Nat) (c : Char) (cs : List Char) :
    digitsVal acc (c :: cs) = digitsVal (acc * 10 + (c.toNat - 48)) cs := rfl

theorem digitsVal_append (xs ys : List Char) :
    ∀ acc, digitsVal acc (xs ++ ys) = digitsVal (digitsVal acc xs) ys := by
  induction xs with
  | nil => intro acc; rfl
  | cons c cs ih =>
    intro acc
    rw [List.cons_append, digitsVal_cons, digitsVal_cons, ih]

theorem renderNat_eq (n : Nat) :
    renderNat n =
      if n < 10 then [digitChar n] else renderNat (n / 10) ++ [digitChar (n % 10)] := by
  show natDigits (n + 1) n = _
  unfold natDigits
  by_cases h : n < 10
  · simp [h]
  · have hdiv : n / 10 < n := Nat.div_lt_self (by omega) (by norm_num)
    simp only [h, if_false]
    rw [natDigits_fuel (n / 10) n (n / 10 + 1) hdiv (by omega)]
    rfl

theorem digitsVal_renderNat (n : Nat) :
    ∀ acc, digitsVal acc (renderNat n) = acc * 10 ^ (renderNat n).length + n := by
  induction n using Nat.strong_induction_on with
  | _ n ih =>
    intro acc
    rw [renderNat_eq n]
    by_cases h : n < 10
    · simp only [h, if_true, digitsVal_cons, digitsVal_nil, List.length_singleton,
        pow_one, digitChar_toNat, Nat.mod_eq_of_lt h]
      omega
    · have hdiv : n / 10 < n := Nat.div_lt_self (by omega) (by norm_num)
      simp only [h, if_false]
      rw [digitsVal_append, ih (n / 10) hdiv acc, digitsVal_cons, digitsVal_nil,
        List.length_append, List.length_singleton, digitChar_toNat, Nat.pow_succ]
      ring_nf
      omega

theorem takeDigits_append (ds rest : List Char)
    (hds : ∀ c ∈ ds, isDigitChar c = true) (hrest : headIsDigit rest = false) :
    takeDigits (ds ++ rest) = (ds, rest) := by
  induction ds with
  | nil =>
    simp only [List.nil_append]
    match rest with
    | [] => rfl
    | c :: cs =>
      simp only [headIsDigit] at hrest
      simp [takeDigits, hrest]
  | cons c cs ih =>
    have hc : isDigitChar c = true := hds c (by simp)
    have ihh := ih (fun x hx => hds x (by simp [hx]))
    simp [takeDigits, hc, ihh]

theorem string_mk_data (s : String) : String.mk s.data = s := by
  cases s
  rfl

theorem parseNatNum_renderNat (n : Nat) (rest : List Char)
    (hrest : headIsDigit rest = false) :
    parseNatNum (renderNat n ++ rest) = some (n, rest) := by
  unfold parseNatNum
  rw [takeDigits_append (renderNat n) rest
    (fun c hc => natDigits_all_digits (n + 1) n c hc) hrest]
  have hne : renderNat n ≠ [] := natDigits_ne_nil n n
  match hrn : renderNat n with
  | [] => exact absurd hrn hne
  | d :: ds =>
    simp only []
    have := digitsVal_renderNat n 0
    rw [hrn] at this
    simp at this
    simp [this]

/-! ## String escaping round trip -/

theorem parseStringChars_escChar (c : Char) (cs : List Char) :
    parseStringChars (escChar c ++ cs) =
      (parseStringChars cs).map (fun p => (c :: p.1, p.2)) := by
  by_cases h1 : c = '"'
  · subst h1
    rw [show escChar '"' = ['\\', '"'] from rfl, List.cons_append, List.cons_append,
      parseStringChars.eq_def]
    simp
  · by_cases h2 : c = '\\'
    · subst h2
      rw [show escChar '\\' = ['\\', '\\'] from rfl, List.cons_append, List.cons_append,
        parseStringChars.eq_def]
      simp
    · by_cases h3 : c = '\n'
      · subst h3
        rw [show escChar '\n' = ['\\', 'n'] from rfl, List.cons_append, List.cons_append,
          parseStringChars.eq_def]
        simp
      · by_cases h4 : c = '\r'
        · subst h4
          rw [show escChar '\r' = ['\\', 'r'] from rfl, List.cons_append, List.cons_append,
            parseStringChars.eq_def]
          simp
        · by_cases h5 : c = '\t'
          · subst h5
            rw [show escChar '\t' = ['\\', 't'] from rfl, List.cons_append, List.cons_append,
              parseStringChars.eq_def]
            simp
          · by_cases h6 : c = '\x08'
            · subst h6
              rw [show escChar '\x08' = ['\\', 'b'] from rfl, List.cons_append,
                List.cons_append, parseStringChars.eq_def]
              simp
            · by_cases h7 : c = '\x0c'
              · subst h7
                rw [show escChar '\x0c' = ['\\', 'f'] from rfl, List.cons_append,
                  List.cons_append, parseStringChars.eq_def]
                simp
              · by_cases h8 : c.toNat < 32
                · have he : escChar c = ['\\', 'u', '0', '0',
                      hexDigitChar (c.toNat / 16), hexDigitChar (c.toNat % 16)] := by
                    unfold escChar
                    rw [if_neg h1, if_neg h2, if_neg h3, if_neg h4, if_neg h5,
                      if_neg h6, if_neg h7, if_pos h8]
                  have hdiv : c.toNat / 16 < 16 := by omega
                  have hmod : c.toNat % 16 < 16 := Nat.mod_lt _ (by norm_num)
                  rw [he]
                  simp only [List.cons_append, List.nil_append]
                  rw [parseStringChars.eq_def]
                  simp only [hexVal_hexDigitChar _ hdiv, hexVal_hexDigitChar _ hmod]
                  simp [hexVal]
                  have hc : c.toNat / 16 * 16 + c.toNat % 16 = c.toNat := by omega
                  rw [hc]
                  simp [show c.toNat < 55296 by omega, Char.ofNat_toNat]
                · have he : escChar c = [c] := by
                    unfold escChar
                    rw [if_neg h1, if_neg h2, if_neg h3, if_neg h4, if_neg h5,
                      if_neg h6, if_neg h7, if_neg h8]
                  rw [he, List.cons_append, List.nil_append, parseStringChars.eq_def]
                  simp [beq_eq_false_iff_ne.mpr h1, beq_eq_false_iff_ne.mpr h2, h8]

theorem parseStringChars_escList (L : List Char) (rest : List Char) :
    parseStringChars (escList L ++ '"' :: rest) = some (L, rest) := by
  induction L with
  | nil =>
    show parseStringChars ([] ++ '"' :: rest) = _
    rw [List.nil_append, parseStringChars.eq_def]
    simp
  | cons c cs ih =>
    show parseStringChars ((escChar c ++ escList cs) ++ '"' :: rest) = _
    rw [List.append_assoc, parseStringChars_escChar, ih]
    rfl

theorem parseStringBody_renderString (s : String) (rest : List Char) :
    parseStringBody (escList s.data ++ '"' :: rest) = some (s, rest) := by
  unfold parseStringBody
  rw [parseStringChars_escList]
  simp [string_mk_data]

/-! ## Structure of rendered values -/

theorem Json.size_pos (j : Json) : 1 ≤ j.size := by
  cases j <;> simp [Json.size]

theorem renderNat_cons (m : Nat) : ∃ c cs, renderNat m = c :: cs ∧ isDigitChar c = true := by
  match hr : renderNat m with
  | [] => exact absurd hr (natDigits_ne_nil m m)
  | c :: cs =>
    refine ⟨c, cs, rfl, natDigits_all_digits (m + 1) m c ?_⟩
    show c ∈ renderNat m
    rw [hr]
    simp

mutual

theorem Json.size_le_renderJ (j : Json) : j.size ≤ (Json.render j).length := by
  cases j with
  | null => simp [Json.size, Json.render]
  | bool b => cases b <;> simp [Json.size, Json.render]
  | num n =>
    cases n with
    | ofNat m =>
      obtain ⟨c, cs, hr, _⟩ := renderNat_cons m
      simp [Json.size, Json.render, renderInt, hr]
    | negSucc m => simp [Json.size, Json.render, renderInt]
  | str s => simp [Json.size, Json.render, renderString]
  | arr es =>
    cases es with
    | nil => simp [Json.size, JsonList.size, Json.render]
    | cons e tl =>
      have h := JsonList.size_le_renderL (.cons e tl)
      simp only [Json.size, Json.render, List.length_cons, List.length_append]
      simp at h ⊢
      omega
  | obj fs =>
    cases fs with
    | nil => simp [Json.size, JsonFields.size, Json.render]
    | cons k v tl =>
      have h := JsonFields.size_le_renderF (.cons k v tl)
      simp only [Json.size, Json.render, List.length_cons, List.length_append]
      simp at h ⊢
      omega

theorem JsonList.size_le_renderL (es : JsonList) :
    es.size ≤ (JsonList.render es).length + 1 := by
  cases es with
  | nil => simp [JsonList.size]
  | cons e tl =>
    cases tl with
    | nil =>
      have h := Json.size_le_renderJ e
      simp [JsonList.size, JsonList.render]
      omega
    | cons e' tl' =>
      have h1 := Json.size_le_renderJ e
      have h2 := JsonList.size_le_renderL (.cons e' tl')
      simp only [JsonList.size] at h2
      simp only [JsonList.size, JsonList.render, List.length_append, List.length_cons]
      omega

theorem JsonFields.size_le_renderF (fs : JsonFields) :
    fs.size ≤ (JsonFields.render fs).length + 1 := by
  cases fs with
  | nil => simp [JsonFields.size]
  | cons k v tl =>
    cases tl with
    | nil =>
      have h := Json.size_le_renderJ v
      simp [JsonFields.size, JsonFields.render]
      omega
    | cons k' v' tl' =>
      have h1 := Json.size_le_renderJ v
      have h2 := JsonFields.size_le_renderF (.cons k' v' tl')
      simp only [JsonFields.size] at h2
      simp only [JsonFields.size, JsonFields.render, List.length_append, List.length_cons]
      omega

end

/-- Every rendered value starts with a non-whitespace character that is not
a closing bracket, so the parser's whitespace skip and end-of-array test
leave it alone. -/
theorem render_head (j : Json) : ∃ c cs, Json.render j = c :: cs ∧
    isWsChar c = false ∧ (c == ']') = false := by
  cases j with
  | null => exact ⟨'n', _, rfl, by decide, by decide⟩
  | bool b =>
    cases b with
    | true => exact ⟨'t', _, rfl, by decide, by decide⟩
    | false => exact ⟨'f', _, rfl, by decide, by decide⟩
  | num n =>
    cases n with
    | ofNat m =>
      obtain ⟨c, cs, hr, hd⟩ := renderNat_cons m
      exact ⟨c, cs, by simpa [Json.render, renderInt] using hr,
        isWsChar_false_of_isDigitChar hd,
        char_beq_false_of_isDigitChar ']' (by decide) hd⟩
    | negSucc m => exact ⟨'-', _, rfl, by decide, by decide⟩
  | str s => exact ⟨'"', _, rfl, by decide, by decide⟩
  | arr es =>
    cases es with
    | nil => exact ⟨'[', _, rfl, by decide, by decide⟩
    | cons e tl => exact ⟨'[', _, rfl, by decide, by decide⟩
  | obj fs =>
    cases fs with
    | nil => exact ⟨'{', _, rfl, by decide, by decide⟩
    | cons k v tl => exact ⟨'{', _, rfl, by decide, by decide⟩

theorem renderList_head (es : JsonList) (h : es ≠ .nil) :
    ∃ c cs, JsonList.render es = c :: cs ∧ isWsChar c = false ∧ (c == ']') = false := by
  cases es with
  | nil => exact absurd rfl h
  | cons e tl =>
    obtain ⟨c, cs, hr, hw, hb⟩ := render_head e
    cases tl with
    | nil => exact ⟨c, cs, hr, hw, hb⟩
    | cons e' tl' =>
      refine ⟨c, cs ++ ',' :: JsonList.render (.cons e' tl'), ?_, hw, hb⟩
      simp [JsonList.render, hr]

theorem headIsDigit_cons (c : Char) (cs : List Char) :
    headIsDigit (c :: cs) = isDigitChar c := rfl

/-! ## The printer-parser round trip -/

mutual

theorem parseVal_render (j : Json) : ∀ f rest, j.size ≤ f → headIsDigit rest = false →
    parseVal f (Json.render j ++ rest) = some (j, rest) := by
  intro f rest hf hrest
  obtain ⟨f', rfl⟩ : ∃ f', f = f' + 1 := ⟨f - 1, by have := Json.size_pos j; omega⟩
  cases j with
  | null => simp [Json.render, parseVal, skipWs, isWsChar, expectChars]
  | bool b => cases b <;> simp [Json.render, parseVal, skipWs, isWsChar, expectChars]
  | num n =>
    cases n with
    | ofNat m =>
      obtain ⟨c, cs, hr, hd⟩ := renderNat_cons m
      have hw := isWsChar_false_of_isDigitChar hd
      rw [show Json.render (.num (Int.ofNat m)) = renderNat m from rfl, hr, List.cons_append]
      simp only [parseVal, skipWs_cons _ _ hw,
        char_beq_false_of_isDigitChar 'n' (by decide) hd,
        char_beq_false_of_isDigitChar 't' (by decide) hd,
        char_beq_false_of_isDigitChar 'f' (by decide) hd,
        char_beq_false_of_isDigitChar '"' (by decide) hd,
        char_beq_false_of_isDigitChar '[' (by decide) hd,
        char_beq_false_of_isDigitChar '{' (by decide) hd,
        char_beq_false_of_isDigitChar '-' (by decide) hd,
        hd, Bool.false_eq_true, if_false, if_true]
      rw [← List.cons_append, ← hr, parseNatNum_renderNat m rest hrest]
      simp [Int.ofNat_eq_coe]
    | negSucc m =>
      rw [show Json.render (.num (Int.negSucc m)) = '-' :: renderNat (m + 1) from rfl,
        List.cons_append]
      simp only [parseVal, skipWs_cons _ _ (by decide : isWsChar '-' = false)]
      simp only [show ('-' == 'n') = false from by decide,
        show ('-' == 't') = false from by decide,
        show ('-' == 'f') = false from by decide,
        show ('-' == '"') = false from by decide,
        show ('-' == '[') = false from by decide,
        show ('-' == '{') = false from by decide,
        show ('-' == '-') = true from by decide,
        Bool.false_eq_true, if_false, if_true]
      rw [parseNatNum_renderNat (m + 1) rest hrest]
      simp [Int.negSucc_eq]
  | str s =>
    rw [show Json.render (.str s) = '"' :: (escList s.data ++ ['"']) from rfl,
      List.cons_append, List.append_assoc, List.singleton_append]
    simp only [parseVal, skipWs_cons _ _ (by decide : isWsChar '"' = false)]
    simp only [show ('"' == 'n') = false from by decide,
      show ('"' == 't') = false from by decide,
      show ('"' == 'f') = false from by decide,
      show ('"' == '"') = true from by decide,
      Bool.false_eq_true, if_false, if_true]
    rw [parseStringBody_renderString s rest]
    simp
  | arr es =>
    cases es with
    | nil =>
      simp [Json.render, parseVal, skipWs, isWsChar, headIs]
    | cons e tl =>
      have hsz : JsonList.size (.cons e tl) ≤ f' := by
        simp only [Json.size] at hf
        omega
      obtain ⟨c, cs, hr, hw, hb⟩ := renderList_head (.cons e tl) (by simp)
      have hskip : skipWs (JsonList.render (.cons e tl) ++ ']' :: rest)
          = JsonList.render (.cons e tl) ++ ']' :: rest := by
        rw [hr, List.cons_append, skipWs_cons _ _ hw]
      have hhead : headIs (JsonList.render (.cons e tl) ++ ']' :: rest) ']' = false := by
        rw [hr, List.cons_append]
        simpa [headIs] using hb
      rw [show Json.render (.arr (.cons e tl))
          = '[' :: (JsonList.render (.cons e tl) ++ [']']) from rfl,
        List.cons_append, List.append_assoc, List.singleton_append]
      simp only [parseVal, skipWs_cons _ _ (by decide : isWsChar '[' = false)]
      simp only [show ('[' == 'n') = false from by decide,
        show ('[' == 't') = false from by decide,
        show ('[' == 'f') = false from by decide,
        show ('[' == '"') = false from by decide,
        show ('[' == '[') = true from by decide,
        Bool.false_eq_true, if_false, if_true]
      rw [hskip]
      simp only [hhead, Bool.false_eq_true, if_false]
      rw [parseElems_render (.cons e tl) f' rest (by simp) hsz]
      simp
  | obj fs =>
    cases fs with
    | nil =>
      simp [Json.render, parseVal, skipWs, isWsChar, headIs]
    | cons k v tl =>
      have hsz : JsonFields.size (.cons k v tl) ≤ f' := by
        simp only [Json.size] at hf
        omega
      have hskip : skipWs (JsonFields.render (.cons k v tl) ++ '}' :: rest)
          = JsonFields.render (.cons k v tl) ++ '}' :: rest := by
        cases tl <;>
          simp only [JsonFields.render, renderString, List.cons_append,
            List.append_assoc] <;>
          rw [skipWs_cons _ _ (by decide : isWsChar '"' = false)]
      have hhead : headIs (JsonFields.render (.cons k v tl) ++ '}' :: rest) '}' = false := by
        cases tl <;>
          simp [JsonFields.render, renderString, List.cons_append, headIs]
      rw [show Json.render (.obj (.cons k v tl))
          = '{' :: (JsonFields.render (.cons k v tl) ++ ['}']) from rfl,
        List.cons_append, List.append_assoc, List.singleton_append]
      simp only [parseVal, skipWs_cons _ _ (by decide : isWsChar '{' = false)]
      simp only [show ('{' == 'n') = false from by decide,
        show ('{' == 't') = false from by decide,
        show ('{' == 'f') = false from by decide,
        show ('{' == '"') = false from by decide,
        show ('{' == '[') = false from by decide,
        show ('{' == '{') = true from by decide,
        Bool.false_eq_true, if_false, if_true]
      rw [hskip]
      simp only [hhead, Bool.false_eq_true, if_false]
      rw [parseMembers_render (.cons k v tl) f' rest (by simp) hsz]
      simp

theorem parseElems_render (es : JsonList) : ∀ f rest, es ≠ .nil → es.size ≤ f →
    parseElems f (JsonList.render es ++ ']' :: rest) = some (es, rest) := by
  intro f rest hne hf
  cases es with
  | nil => exact absurd rfl hne
  | cons e tl =>
    obtain ⟨f', rfl⟩ : ∃ f', f = f' + 1 := by
      have := Json.size_pos e
      simp only [JsonList.size] at hf
      exact ⟨f - 1, by omega⟩
    have hsze : e.size ≤ f' := by
      have := Json.size_pos e
      simp only [JsonList.size] at hf
      omega
    cases tl with
    | nil =>
      rw [show JsonList.render (.cons e .nil) = Json.render e from rfl]
      simp only [parseElems]
      rw [parseVal_render e f' (']' :: rest) hsze (by rw [headIsDigit_cons]; decide)]
      simp only [skipWs_cons _ _ (by decide : isWsChar ']' = false)]
      simp [headIs]
    | cons e' tl' =>
      have hsztl : JsonList.size (.cons e' tl') ≤ f' := by
        have := Json.size_pos e
        simp only [JsonList.size] at hf ⊢
        omega
      rw [show JsonList.render (.cons e (.cons e' tl'))
          = Json.render e ++ ',' :: JsonList.render (.cons e' tl') from rfl,
        List.append_assoc, List.cons_append]
      simp only [parseElems]
      rw [parseVal_render e f' (',' :: (JsonList.render (.cons e' tl') ++ ']' :: rest))
        hsze (by rw [headIsDigit_cons]; decide)]
      simp only [skipWs_cons _ _ (by decide : isWsChar ',' = false)]
      simp only [headIs, show (',' == ',') = true from by decide, if_true, List.tail_cons]
      rw [parseElems_render (.cons e' tl') f' rest (by simp) hsztl]
      simp

theorem parseMembers_render (fs : JsonFields) : ∀ f rest, fs ≠ .nil → fs.size ≤ f →
    parseMembers f (JsonFields.render fs ++ '}' :: rest) = some (fs, rest) := by
  intro f rest hne hf
  cases fs with
  | nil => exact absurd rfl hne
  | cons k v tl =>
    obtain ⟨f', rfl⟩ : ∃ f', f = f' + 1 := by
      have := Json.size_pos v
      simp only [JsonFields.size] at hf
      exact ⟨f - 1, by omega⟩
    have hszv : v.size ≤ f' := by
      have := Json.size_pos v
      simp only [JsonFields.size] at hf
      omega
    cases tl with
    | nil =>
      rw [show JsonFields.render (.cons k v .nil)
          = ('"' :: (escList k.data ++ ['"'])) ++ ':' :: Json.render v from rfl]
      simp only [List.append_assoc, List.cons_append, List.singleton_append, List.nil_append]
      simp only [parseMembers]
      rw [skipWs_cons _ _ (by decide : isWsChar '"' = false)]
      simp only [headIs, show ('"' == '"') = true from by decide, if_true, List.tail_cons]
      rw [parseStringBody_renderString k (':' :: (Json.render v ++ '}' :: rest))]
      simp only [skipWs_cons _ _ (by decide : isWsChar ':' = false)]
      simp only [headIs, show (':' == ':') = true from by decide, if_true, List.tail_cons]
      rw [parseVal_render v f' ('}' :: rest) hszv (by rw [headIsDigit_cons]; decide)]
      simp only [skipWs_cons _ _ (by decide : isWsChar '}' = false)]
      simp [headIs]
    | cons k' v' tl' =>
      have hsztl : JsonFields.size (.cons k' v' tl') ≤ f' := by
        have := Json.size_pos v
        simp only [JsonFields.size] at hf ⊢
        omega
      rw [show JsonFields.render (.cons k v (.cons k' v' tl'))
          = ('"' :: (escList k.data ++ ['"']))
            ++ ':' :: (Json.render v ++ ',' :: JsonFields.render (.cons k' v' tl')) from by
          simp [JsonFields.render, renderString]]
      simp only [List.append_assoc, List.cons_append, List.singleton_append, List.nil_append]
      simp only [parseMembers]
      rw [skipWs_cons _ _ (by decide : isWsChar '"' = false)]
      simp only [headIs, show ('"' == '"') = true from by decide, if_true, List.tail_cons]
      rw [parseStringBody_renderString k
        (':' :: (Json.render v ++ ',' :: (JsonFields.render (.cons k' v' tl') ++ '}' :: rest)))]
      simp only [skipWs_cons _ _ (by decide : isWsChar ':' = false)]
      simp only [headIs, show (':' == ':') = true from by decide, if_true, List.tail_cons]
      rw [parseVal_render v f'
        (',' :: (JsonFields.render (.cons k' v' tl') ++ '}' :: rest))
        hszv (by rw [headIsDigit_cons]; decide)]
      simp only [skipWs_cons _ _ (by decide : isWsChar ',' = false)]
      simp only [headIs, show (',' == ',') = true from by decide, if_true, List.tail_cons]
      rw [parseMembers_render (.cons k' v' tl') f' rest (by simp) hsztl]
      simp

end

/-- `JSON.parse` inverts `JSON.stringify` on every JSON value. -/
theorem jsonParse_render (j : Json) : jsonParse (String.mk (Json.render j)) = some j := by
  unfold jsonParse
  rw [show (String.mk (Json.render j)).data = Json.render j from rfl]
  have hsz : j.size ≤ (Json.render j).length + 1 :=
    le_trans (Json.size_le_renderJ j) (by omega)
  have h := parseVal_render j ((Json.render j).length + 1) [] hsz rfl
  rw [List.append_nil] at h
  rw [h]
  rfl

/-! ## Message round trip -/

/-- `Message.fromJSON` inverts `Message.toJSON` whenever the four fields are
defined and the id is truthy (the `Message` constructor guarantees a truthy
id for every message it builds, replacing a falsy one by a fresh uuid). -/
theorem message_roundtrip (m : Message) (fresh : String)
    (hv : m.version.isSome = true) (ht : m.type.isSome = true)
    (hp : m.payload.isSome = true) (hid : jsTruthy m.id = true) :
    Message.fromJSON (Message.toJSON m) fresh = some m := by
  obtain ⟨mv, mt, mp, mid⟩ := m
  simp only [Option.isSome_iff_exists] at hv ht hp
  obtain ⟨v, rfl⟩ := hv
  obtain ⟨t, rfl⟩ := ht
  obtain ⟨p, rfl⟩ := hp
  obtain ⟨i, rfl⟩ : ∃ i, mid = some i := by
    cases mid with
    | none => simp [jsTruthy] at hid
    | some i => exact ⟨i, rfl⟩
  unfold Message.toJSON Message.fromJSON
  rw [show Message.toJSONValue ⟨some v, some t, some p, some i⟩
      = .obj (.cons "version" v (.cons "type" t (.cons "payload" p (.cons "id" i .nil))))
    from rfl]
  rw [jsonParse_render]
  simp only []
  rw [show jsGet (.obj (.cons "version" v (.cons "type" t (.cons "payload" p
        (.cons "id" i .nil))))) "version" = some v from by simp [jsGet, jsGetFields]]
  rw [show jsGet (.obj (.cons "version" v (.cons "type" t (.cons "payload" p
        (.cons "id" i .nil))))) "type" = some t from by simp [jsGet, jsGetFields]]
  rw [show jsGet (.obj (.cons "version" v (.cons "type" t (.cons "payload" p
        (.cons "id" i .nil))))) "payload" = some p from by simp [jsGet, jsGetFields]]
  rw [show jsGet (.obj (.cons "version" v (.cons "type" t (.cons "payload" p
        (.cons "id" i .nil))))) "id" = some i from by simp [jsGet, jsGetFields]]
  unfold Message.make
  rw [if_pos hid]

/-! ## Claim C1 -/

/-- C1: for every valid envelope — version, type, payload and id fields all
defined, the id truthy (which the `Message` constructor guarantees for every
envelope it builds, replacing a falsy id by a fresh uuid) — parsing the
serialized text yields an envelope equal to the original in all four
fields: `Message.fromJSON (Message.toJSON m) = m`. -/
theorem C1_parse_serialize_roundtrip (m : Message) (fresh : String)
    (hv : m.version.isSome = true) (ht : m.type.isSome = true)
    (hp : m.payload.isSome = true) (hid : jsTruthy m.id = true) :
    Message.fromJSON (Message.toJSON m) fresh = some m :=
  message_roundtrip m fresh hv ht hp hid

/-- C1 witness: the round trip on a concrete transaction-request envelope. -/
theorem C1_witness :
    Message.fromJSON (Message.toJSON exampleTxRequest) "uuid-w1" = some exampleTxRequest :=
  C1_parse_serialize_roundtrip exampleTxRequest "uuid-w1" rfl rfl rfl rfl

/-! ## Claim C4 -/

/-- C4 (amended): `Message.fromJSON` performs no field or kind validation:
it fails only when `JSON.parse` fails (invalid JSON text) or when the parsed
value is `null` (the `data.version` access throws); on any other JSON value
it succeeds, with absent fields undefined and a missing/falsy id replaced by
a fresh uuid.  Version checking is the separate boolean
`MessageProtocol.validateVersion` consulted by the message handlers, not a
parse failure. -/
theorem C4_parse_no_validation (s fresh : String) :
    (jsonParse s = none → Message.fromJSON s fresh = none)
    ∧ (jsonParse s = some .null → Message.fromJSON s fresh = none)
    ∧ (∀ j, jsonParse s = some j → j ≠ .null →
        (Message.fromJSON s fresh).isSome = true) := by
  refine ⟨?_, ?_, ?_⟩
  · intro h; simp [Message.fromJSON, h]
  · intro h; simp [Message.fromJSON, h]
  · intro j hj hne
    unfold Message.fromJSON
    rw [hj]
    cases j <;> simp_all

/-- C4 counterexample: wire text missing the version, payload and id fields,
and wire text carrying protocolVersion "2.0", both parse successfully —
`fromJSON` raises neither a `MalformedEnvelope` nor an `UnsupportedVersion`
error, and the version mismatch is only visible through the separate
`validateVersion` check afterwards. -/
theorem C4_counterexample :
    (Message.fromJSON missingFieldsText "u0").isSome = true
    ∧ (Message.fromJSON versionTwoText "u0").isSome = true
    ∧ MessageProtocol.validateVersion
        ((Message.fromJSON versionTwoText "u0").getD exampleTxRequest) = false := by
  exact ⟨rfl, rfl, rfl⟩

/-- C4 witness: the amended theorem applied to the missing-fields text. -/
theorem C4_witness : (Message.fromJSON missingFieldsText "u1").isSome = true :=
  (C4_parse_no_validation missingFieldsText "u1").2.2 missingFieldsValue rfl
    (fun h => nomatch h)

/-! ## Claim C2 -/

/-- C2 (amended): the client's handshake has no retry loop.  Whatever the
configured `retries` value (the `SoundProtocol` constructor stores it but no
code path reads it), `connectToWallet` hands exactly one `Connect` envelope
to `sendMessage`, awaits `waitForMessage('connect_response', 10000)` once,
and when no connect response ever arrives it returns `false`. -/
theorem C2_single_connect_no_retry (retries : Nat) (fresh : String)
    (sendOk : Bool) (ack : Option Message) :
    (OnlineClient.connectToWallet retries fresh sendOk ack).sentMessages
        = [MessageProtocol.createConnect fresh]
    ∧ (OnlineClient.connectToWallet retries fresh true none).success = false := by
  constructor
  · unfold OnlineClient.connectToWallet
    cases sendOk with
    | false => rfl
    | true =>
      cases ack with
      | none => rfl
      | some resp =>
        cases h : jsProp resp.payload "address" <;> simp [h]
  · rfl

/-- C2 counterexample: with `maxRetries = 3` and no ConnectAck ever
arriving, the client does not transmit `3 + 1` Connect envelopes — it
transmits one. -/
theorem C2_counterexample :
    OnlineClient.connectCount (OnlineClient.connectToWallet 3 "u2" true none) ≠ 3 + 1 := by
  decide

/-! ## Claim C3 -/

theorem typeIs_some (t : Option Json) (s : String) (h : typeIs t s = true) :
    t = some (.str s) := by
  cases t with
  | none => simp [typeIs] at h
  | some j =>
    cases j with
    | str x =>
      rw [show x = s from beq_iff_eq.mp (by simpa [typeIs] using h)]
    | null => simp [typeIs] at h
    | bool b => simp [typeIs] at h
    | num n => simp [typeIs] at h
    | arr es => simp [typeIs] at h
    | obj fs => simp [typeIs] at h

theorem beq_busy_false_of_long (pre y : String) (h : 5 ≤ pre.length) :
    (pre ++ y == "Busy") = false := by
  cases hb : pre ++ y == "Busy" with
  | false => rfl
  | true =>
    have heq : pre ++ y = "Busy" := beq_iff_eq.mp hb
    have hlen := congrArg String.length heq
    rw [String.length_append] at hlen
    have : String.length "Busy" = 4 := rfl
    omega

theorem isBusyError_createError (msg : String) (rid : Option Json) (fresh : String) :
    isBusyError (MessageProtocol.createError msg rid fresh) = (msg == "Busy") := by
  unfold MessageProtocol.createError Message.make isBusyError
  by_cases h : jsTruthy rid = true
  · cases rid with
    | none => simp [jsTruthy] at h
    | some r => simp [h, optField, jsGetFields]
  · simp only [Bool.not_eq_true] at h
    simp [h, jsGetFields]

theorem isBusyError_connectResponse (a : String) (rid : Option Json) (fresh : String) :
    isBusyError (MessageProtocol.createConnectResponse a rid fresh) = false := by
  unfold MessageProtocol.createConnectResponse Message.make isBusyError
  simp

theorem isBusyError_txResponse (raw hash fresh : String) :
    isBusyError (MessageProtocol.createTxResponse raw hash fresh) = false := by
  unfold MessageProtocol.createTxResponse Message.make isBusyError
  simp

/-- C3 (amended): the signer wallet has no busy guard and no pending-request
state at all — `handleMessage` consults nothing but the message itself (its
inputs carry no session state, so any second `TxRequest` decoded while an
earlier one is mid-approval is handled identically to the first): a
supported-version `TxRequest` is always processed, reaching the
user-confirmation prompt (or the processing-failure error reply), and no
reply the wallet can ever send is an `Error(Busy)`. -/
theorem C3_no_busy_guard (walletAddress : String) (message : Message)
    (approve : Bool) (sign : EthTx → String × String) (errText fresh : String) :
    (∀ r, (OfflineWallet.handleMessage walletAddress message approve sign
        errText fresh).replySent = some r → isBusyError r = false)
    ∧ (typeIs message.type "tx_request" = true →
       MessageProtocol.validateVersion message = true →
       (∃ tx kind reply, OfflineWallet.handleMessage walletAddress message approve sign
           errText fresh = .txProcessed tx kind reply)
       ∨ (∃ reply, OfflineWallet.handleMessage walletAddress message approve sign
           errText fresh = .txFailed reply)) := by
  constructor
  · intro r hr
    unfold OfflineWallet.handleMessage at hr
    by_cases hv : MessageProtocol.validateVersion message = true
    · rw [hv] at hr
      simp only [Bool.not_true, Bool.false_eq_true, if_false] at hr
      by_cases hc : typeIs message.type "connect" = true
      · rw [hc] at hr
        simp only [if_true, OfflineWallet.HandlerStep.replySent, Option.some.injEq] at hr
        rw [← hr]
        exact isBusyError_connectResponse _ _ _
      · rw [Bool.not_eq_true] at hc
        rw [hc] at hr
        simp only [Bool.false_eq_true, if_false] at hr
        by_cases ht : typeIs message.type "tx_request" = true
        · rw [ht] at hr
          simp only [if_true] at hr
          cases hb : OfflineWallet.buildTxFromRequest message with
          | error e =>
            rw [hb] at hr
            simp only [OfflineWallet.HandlerStep.replySent, Option.some.injEq] at hr
            rw [← hr, isBusyError_createError]
            exact beq_busy_false_of_long "Transaction processing failed: " errText (by decide)
          | ok p =>
            rw [hb] at hr
            obtain ⟨tx, kind⟩ := p
            cases approve with
            | true =>
              simp only [if_true, OfflineWallet.HandlerStep.replySent,
                Option.some.injEq] at hr
              rw [← hr]
              exact isBusyError_txResponse _ _ _
            | false =>
              simp only [Bool.false_eq_true, if_false,
                OfflineWallet.HandlerStep.replySent, Option.some.injEq] at hr
              rw [← hr, isBusyError_createError]
              decide
        · rw [Bool.not_eq_true] at ht
          rw [ht] at hr
          simp [OfflineWallet.HandlerStep.replySent] at hr
    · rw [Bool.not_eq_true] at hv
      rw [hv] at hr
      simp only [Bool.not_false, if_true, OfflineWallet.HandlerStep.replySent,
        Option.some.injEq] at hr
      rw [← hr, isBusyError_createError]
      exact beq_busy_false_of_long "Unsupported protocol version: " _ (by decide)
  · intro ht hv
    unfold OfflineWallet.handleMessage
    rw [hv]
    have hc : typeIs message.type "connect" = false := by
      rw [typeIs_some _ _ ht]
      simp [typeIs]
    rw [hc, ht]
    simp only [Bool.not_true, Bool.false_eq_true, if_false, if_true]
    cases hb : OfflineWallet.buildTxFromRequest message with
    | error e => exact Or.inr ⟨_, rfl⟩
    | ok p =>
      obtain ⟨tx, kind⟩ := p
      cases approve with
      | true => exact Or.inl ⟨tx, kind, _, rfl⟩
      | false => exact Or.inl ⟨tx, kind, _, rfl⟩

/-- C3 counterexample: a second transaction request (`req-2`) decoded while
`req-1` is pending approval is fully processed — here the user declines it,
so the reply is the user-rejection error, not `Error(Busy)`, and it is the
result of a second approval prompt rather than an immediate busy answer. -/
theorem C3_counterexample :
    (OfflineWallet.handleMessage "0xW" secondTxRequest false exampleSigner
        "boom" "f1").replySent
      = some (MessageProtocol.createError "Transaction rejected by user"
          (some (.str "req-2")) "f1")
    ∧ isBusyError (MessageProtocol.createError "Transaction rejected by user"
        (some (.str "req-2")) "f1") = false := ⟨rfl, rfl⟩

/-- C3 witness: the amended theorem applied to the concrete second request. -/
theorem C3_witness :
    (∃ tx kind reply, OfflineWallet.handleMessage "0xW" secondTxRequest false
        exampleSigner "boom" "f1" = .txProcessed tx kind reply)
    ∨ (∃ reply, OfflineWallet.handleMessage "0xW" secondTxRequest false
        exampleSigner "boom" "f1" = .txFailed reply) :=
  (C3_no_busy_guard "0xW" secondTxRequest false exampleSigner "boom" "f1").2 rfl rfl

/-! ## Claim C10 -/

/-- C10: `parseHexToNumber` returns 0 for any input that is neither a number
nor a string — in particular for an absent (`undefined`) field — so a
`TxRequest` whose transaction descriptor omits `chainId`, `nonce`,
`gasPrice`, `gasLimit` or `value` is not rejected: `handleTransactionRequest`
builds the transaction record with those fields taken as 0 and proceeds to
the user-approval prompt. -/
theorem C10_missing_fields_become_zero (pfs tfs : JsonFields) (m : Message)
    (hpay : m.payload = some (.obj pfs))
    (htr : jsGetFields pfs "transaction" = some (.obj tfs))
    (hc : jsGetFields tfs "chainId" = none) (hn : jsGetFields tfs "nonce" = none)
    (hg : jsGetFields tfs "gasPrice" = none) (hl : jsGetFields tfs "gasLimit" = none)
    (hval : jsGetFields tfs "value" = none)
    (hd : jsGetFields tfs "data" = some (.str "0x")) :
    OfflineWallet.buildTxFromRequest m =
      .ok ({ toAddress := jsGetFields tfs "to", value := some 0, gasLimit := some 0,
             gasPrice := some 0, nonce := some 0, chainId := some 0,
             data := none, txType := 0 }, "ETH Transfer")
    ∧ (∀ v : Option Json, (∀ n, v ≠ some (.num n)) → (∀ s, v ≠ some (.str s)) →
        CryptoUtils.parseHexToNumber v = some 0) := by
  constructor
  · unfold OfflineWallet.buildTxFromRequest
    rw [hpay]
    simp only [jsProp, htr, hc, hn, hg, hl, hval, hd, Bind.bind, Except.bind]
    rfl
  · intro v h1 h2
    cases v with
    | none => rfl
    | some j =>
      cases j with
      | num n => exact absurd rfl (h1 n)
      | str s => exact absurd rfl (h2 s)
      | null => rfl
      | bool b => rfl
      | arr es => rfl
      | obj fs => rfl

/-- C10 witness: the descriptor that only carries `to` and `data` is
processed with every numeric field equal to 0. -/
theorem C10_witness :
    OfflineWallet.buildTxFromRequest bareTxRequest =
      .ok ({ toAddress := jsGetFields bareTransaction "to", value := some 0,
             gasLimit := some 0, gasPrice := some 0, nonce := some 0,
             chainId := some 0, data := none, txType := 0 }, "ETH Transfer") :=
  (C10_missing_fields_become_zero (.cons "transaction" (.obj bareTransaction) .nil)
    bareTransaction bareTxRequest rfl rfl rfl rfl rfl rfl rfl rfl).1

/-! ## Claim C7 -/

/-- C7 (amended): with no ggwave instance, `sendMessage` logs the envelope
("Would send: ...") and resolves `true` — a simulated success with nothing
encoded or played; with an instance present it resolves `true` exactly when
encoding succeeded and playback ran to completion, and `false` when either
threw. -/
theorem C7_send_simulated_success (st : SoundState) (encodeOk playOk : Bool) :
    ((SoundProtocol.sendMessage st encodeOk playOk).returned = true
      ↔ (st.ggwaveInstance = none ∨ (encodeOk = true ∧ playOk = true)))
    ∧ ((SoundProtocol.sendMessage st encodeOk playOk).played = true
      ↔ (¬st.ggwaveInstance = none ∧ encodeOk = true ∧ playOk = true)) := by
  cases h : st.ggwaveInstance with
  | none => cases encodeOk <;> cases playOk <;> simp [SoundProtocol.sendMessage, h]
  | some g => cases encodeOk <;> cases playOk <;> simp [SoundProtocol.sendMessage, h]

/-- C7 counterexample: with the codec unavailable, `sendMessage` reports
success (`true`) although nothing was encoded or played — it does not fail
with a `CodecUnavailable` result. -/
theorem C7_counterexample :
    (SoundProtocol.sendMessage codeclessSoundState true true).returned = true
    ∧ (SoundProtocol.sendMessage codeclessSoundState true true).played = false :=
  ⟨rfl, rfl⟩

/-! ## Claim C8 -/

/-- C8 (amended): calling `startListening` while already listening is an
early-returned no-op: the previously registered callback stays in place —
it is not replaced by the newly supplied one — and no second capture loop
is started; at most one callback is registered at any time. -/
theorem C8_startListening_noop (st : SoundState) (cb : Nat)
    (h : st.isListening = true) :
    SoundProtocol.startListening st cb = st := by
  simp [SoundProtocol.startListening, h]

/-- C8 counterexample: after a second `startListening` with a new callback,
the registered callback is still the first one, not the new one. -/
theorem C8_counterexample :
    (SoundProtocol.startListening (SoundProtocol.startListening idleSoundState 1)
        2).receivedCallback = some 1
    ∧ (SoundProtocol.startListening (SoundProtocol.startListening idleSoundState 1)
        2).receivedCallback ≠ some 2 :=
  ⟨rfl, by decide⟩

/-- C8 witness: the no-op theorem applied to a concrete listening state. -/
theorem C8_witness :
    SoundProtocol.startListening (SoundProtocol.startListening idleSoundState 1) 2
      = SoundProtocol.startListening idleSoundState 1 :=
  C8_startListening_noop (SoundProtocol.startListening idleSoundState 1) 2 rfl

/-! ## Claims C5 and C6: the audio accumulation buffer -/

/-- With the codec initialized and a callback registered (the state
`startListening` establishes before recording begins), `processAudioBuffer`
reduces to: decode, deliver-and-clear on success, sliding-window trim
otherwise. -/
theorem processAudioBuffer_ready (decode : List Int → Option String) (fresh : String)
    (st : SoundState) (hinit : st.isInitialized = true)
    (hgg : st.ggwaveInstance.isSome = true) (hcb : st.receivedCallback.isSome = true) :
    SoundProtocol.processAudioBuffer decode fresh st
      = match decode st.audioBuffer with
        | some msgStr =>
          match Message.fromJSON msgStr fresh with
          | some m => ({ st with audioBuffer := [] }, some m)
          | none =>
            (if SoundProtocol.sampleRate * 2 < st.audioBuffer.length then
              { st with audioBuffer :=
                  st.audioBuffer.drop (st.audioBuffer.length - SoundProtocol.sampleRate) }
             else st, none)
        | none =>
          (if SoundProtocol.sampleRate * 2 < st.audioBuffer.length then
            { st with audioBuffer :=
                st.audioBuffer.drop (st.audioBuffer.length - SoundProtocol.sampleRate) }
           else st, none) := by
  obtain ⟨g, hg⟩ := Option.isSome_iff_exists.mp hgg
  obtain ⟨cb, hc⟩ := Option.isSome_iff_exists.mp hcb
  unfold SoundProtocol.processAudioBuffer
  rw [hinit]
  rw [if_neg (by simp)]
  rw [if_neg (by simp [hg, hc])]

/-- C6: on each decode attempt over the accumulated buffer, a successful
decode whose bytes parse as a well-formed envelope delivers the envelope to
the registered callback and clears the buffer to length zero; a failed or
empty decode delivers nothing and leaves the buffer intact apart from the
sliding-window trim, so a message spanning several capture frames is not
lost. -/
theorem C6_decode_effects (decode : List Int → Option String) (fresh : String)
    (st : SoundState) (hinit : st.isInitialized = true)
    (hgg : st.ggwaveInstance.isSome = true) (hcb : st.receivedCallback.isSome = true) :
    (∀ s m, decode st.audioBuffer = some s → Message.fromJSON s fresh = some m →
        SoundProtocol.processAudioBuffer decode fresh st
          = ({ st with audioBuffer := [] }, some m))
    ∧ (decode st.audioBuffer = none →
        SoundProtocol.processAudioBuffer decode fresh st
          = (if SoundProtocol.sampleRate * 2 < st.audioBuffer.length then
              { st with audioBuffer :=
                  st.audioBuffer.drop (st.audioBuffer.length - SoundProtocol.sampleRate) }
             else st, none))
    ∧ (∀ s, decode st.audioBuffer = some s → Message.fromJSON s fresh = none →
        SoundProtocol.processAudioBuffer decode fresh st
          = (if SoundProtocol.sampleRate * 2 < st.audioBuffer.length then
              { st with audioBuffer :=
                  st.audioBuffer.drop (st.audioBuffer.length - SoundProtocol.sampleRate) }
             else st, none)) := by
  refine ⟨?_, ?_, ?_⟩
  · intro s m hs hm
    rw [processAudioBuffer_ready decode fresh st hinit hgg hcb, hs]
    simp only [hm]
  · intro hs
    rw [processAudioBuffer_ready decode fresh st hinit hgg hcb, hs]
  · intro s hs hm
    rw [processAudioBuffer_ready decode fresh st hinit hgg hcb, hs]
    simp only [hm]

/-- C6 witness: a decode of the example request's wire text delivers the
request and clears the buffer. -/
theorem C6_witness :
    SoundProtocol.processAudioBuffer toneDecode "u6" bufferedSoundState
      = ({ bufferedSoundState with audioBuffer := [] }, some exampleTxRequest) :=
  (C6_decode_effects toneDecode "u6" bufferedSoundState rfl rfl rfl).1
    (Message.toJSON exampleTxRequest) exampleTxRequest rfl
    (message_roundtrip exampleTxRequest "u6" rfl rfl rfl rfl)

/-- A decode attempt that yields no message keeps the buffer within the
2-second cap and leaves every flag untouched. -/
theorem processAudioBuffer_noMessage_len (decode : List Int → Option String)
    (fresh : String) (st : SoundState) (hinit : st.isInitialized = true)
    (hgg : st.ggwaveInstance.isSome = true) (hcb : st.receivedCallback.isSome = true)
    (hnd : decode st.audioBuffer = none
        ∨ ∃ s, decode st.audioBuffer = some s ∧ Message.fromJSON s fresh = none) :
    (SoundProtocol.processAudioBuffer decode fresh st).1.audioBuffer.length
        ≤ 2 * SoundProtocol.sampleRate
    ∧ (SoundProtocol.processAudioBuffer decode fresh st).1.isInitialized
        = st.isInitialized
    ∧ (SoundProtocol.processAudioBuffer decode fresh st).1.ggwaveInstance
        = st.ggwaveInstance
    ∧ (SoundProtocol.processAudioBuffer decode fresh st).1.receivedCallback
        = st.receivedCallback := by
  have hpos : 0 < SoundProtocol.sampleRate := by norm_num [SoundProtocol.sampleRate]
  by_cases htr : SoundProtocol.sampleRate * 2 < st.audioBuffer.length
  · obtain ⟨x, hx⟩ : ∃ x,
        st.audioBuffer.drop (st.audioBuffer.length - SoundProtocol.sampleRate) = x :=
      ⟨_, rfl⟩
    have hxlen : x.length
        = st.audioBuffer.length
          - (st.audioBuffer.length - SoundProtocol.sampleRate) := by
      rw [← hx, List.length_drop]
    have heq : SoundProtocol.processAudioBuffer decode fresh st
        = ({ st with audioBuffer := x }, none) := by
      rw [processAudioBuffer_ready decode fresh st hinit hgg hcb]
      rcases hnd with hd | ⟨s, hd, hp⟩
      · rw [hd, if_pos htr, hx]
      · rw [hd]
        simp only [hp]
        rw [if_pos htr, hx]
    rw [heq]
    refine ⟨?_, rfl, rfl, rfl⟩
    show x.length ≤ 2 * SoundProtocol.sampleRate
    omega
  · have heq : SoundProtocol.processAudioBuffer decode fresh st = (st, none) := by
      rw [processAudioBuffer_ready decode fresh st hinit hgg hcb]
      rcases hnd with hd | ⟨s, hd, hp⟩
      · rw [hd, if_neg htr]
      · rw [hd]
        simp only [hp]
        rw [if_neg htr]
    rw [heq]
    refine ⟨?_, rfl, rfl, rfl⟩
    show st.audioBuffer.length ≤ 2 * SoundProtocol.sampleRate
    omega

/-- One capture-data event keeps the buffer within the 2-second cap and
leaves the codec flags untouched, provided nothing decodable arrives. -/
theorem onData_noMessage_bound (decode : List Int → Option String) (fresh : String)
    (st : SoundState) (chunk : List Int) (hinit : st.isInitialized = true)
    (hgg : st.ggwaveInstance.isSome = true) (hcb : st.receivedCallback.isSome = true)
    (hnoise : ∀ buf, decode buf = none
        ∨ ∃ s, decode buf = some s ∧ Message.fromJSON s fresh = none) :
    (SoundProtocol.onData decode fresh st chunk).1.audioBuffer.length
        ≤ 2 * SoundProtocol.sampleRate
    ∧ (SoundProtocol.onData decode fresh st chunk).1.isInitialized = true
    ∧ (SoundProtocol.onData decode fresh st chunk).1.ggwaveInstance = st.ggwaveInstance
    ∧ (SoundProtocol.onData decode fresh st chunk).1.receivedCallback
        = st.receivedCallback := by
  unfold SoundProtocol.onData
  by_cases hth : SoundProtocol.sampleRate / 4
      ≤ (st.audioBuffer ++ chunk).length
  · rw [if_pos (by simpa using hth)]
    obtain ⟨hlen, hi, hg, hc⟩ := processAudioBuffer_noMessage_len decode fresh
      { st with audioBuffer := st.audioBuffer ++ chunk } hinit hgg hcb
      (hnoise (st.audioBuffer ++ chunk))
    exact ⟨hlen, by rw [hi]; exact hinit, hg, hc⟩
  · rw [if_neg (by simpa using hth)]
    refine ⟨?_, hinit, rfl, rfl⟩
    have h1 : SoundProtocol.sampleRate / 4 ≤ 2 * SoundProtocol.sampleRate := by
      norm_num [SoundProtocol.sampleRate]
    have h2 : ¬ SoundProtocol.sampleRate / 4 ≤ (st.audioBuffer ++ chunk).length := hth
    simp only []
    omega

theorem runChunks_noMessage (decode : List Int → Option String) (fresh : String)
    (chunks : List (List Int)) :
    ∀ st : SoundState, st.isInitialized = true → st.ggwaveInstance.isSome = true →
      st.receivedCallback.isSome = true →
      st.audioBuffer.length ≤ 2 * SoundProtocol.sampleRate →
      (∀ buf, decode buf = none
          ∨ ∃ s, decode buf = some s ∧ Message.fromJSON s fresh = none) →
      (SoundProtocol.runChunks decode fresh st chunks).audioBuffer.length
        ≤ 2 * SoundProtocol.sampleRate := by
  induction chunks with
  | nil => intro st _ _ _ hlen _; exact hlen
  | cons c cs ih =>
    intro st hinit hgg hcb _hlen hnoise
    obtain ⟨hb, hi, hg, hc⟩ := onData_noMessage_bound decode fresh st c hinit hgg hcb hnoise
    exact ih (SoundProtocol.onData decode fresh st c).1 hi (by rw [hg]; exact hgg)
      (by rw [hc]; exact hcb) hb hnoise

/-- C5: feeding the adapter an arbitrarily long stream of capture chunks
none of which decodes to a valid message never grows the accumulation
buffer beyond its 2-second cap (`2 * sampleRate` samples), and whenever a
decode attempt finds the buffer over the cap it keeps exactly the most
recent second (`sampleRate` samples). -/
theorem C5_buffer_bounded (decode : List Int → Option String) (fresh : String)
    (st : SoundState) (chunks : List (List Int))
    (hinit : st.isInitialized = true) (hgg : st.ggwaveInstance.isSome = true)
    (hcb : st.receivedCallback.isSome = true)
    (hbuf : st.audioBuffer.length ≤ 2 * SoundProtocol.sampleRate)
    (hnoise : ∀ buf, decode buf = none
        ∨ ∃ s, decode buf = some s ∧ Message.fromJSON s fresh = none) :
    (SoundProtocol.runChunks decode fresh st chunks).audioBuffer.length
        ≤ 2 * SoundProtocol.sampleRate
    ∧ (∀ st' : SoundState, st'.isInitialized = true → st'.ggwaveInstance.isSome = true →
        st'.receivedCallback.isSome = true →
        SoundProtocol.sampleRate * 2 < st'.audioBuffer.length →
        (SoundProtocol.processAudioBuffer decode fresh st').1.audioBuffer
          = st'.audioBuffer.drop (st'.audioBuffer.length - SoundProtocol.sampleRate)) := by
  constructor
  · exact runChunks_noMessage decode fresh chunks st hinit hgg hcb hbuf hnoise
  · intro st' hinit' hgg' hcb' hover
    rw [processAudioBuffer_ready decode fresh st' hinit' hgg' hcb']
    rcases hnoise st'.audioBuffer with hd | ⟨s, hd, hp⟩
    · rw [hd]
      simp [hover]
    · rw [hd]
      simp [hp, hover]

/-- C5 witness: the bound applied to a concrete noise stream. -/
theorem C5_witness :
    (SoundProtocol.runChunks noDecode "u5" readySoundState
        [[1, 2, 3], [4, 5]]).audioBuffer.length ≤ 2 * SoundProtocol.sampleRate :=
  (C5_buffer_bounded noDecode "u5" readySoundState [[1, 2, 3], [4, 5]] rfl rfl rfl
    (by decide) (fun _ => Or.inl rfl)).1

/-! ## Claim C9 -/

theorem runWait_forwards (expected : String) (evs : List WaitEvent)
    (pre : List Message) :
    ∀ acc : List Message, (∀ x ∈ pre, typeIs x.type expected = false) →
      runWait { cb := .waiter expected, originalPresent := true, timerActive := true,
                resolved := none, forwarded := acc } (pre.map .msg ++ evs)
        = runWait { cb := .waiter expected, originalPresent := true, timerActive := true,
                    resolved := none, forwarded := acc ++ pre } evs := by
  induction pre with
  | nil => intro acc _; simp
  | cons x pre ih =>
    intro acc hpre
    have hx : typeIs x.type expected = false := hpre x (by simp)
    have hdel : deliver
          { cb := ActiveCallback.waiter expected, originalPresent := true,
            timerActive := true, resolved := none, forwarded := acc } x
        = { cb := ActiveCallback.waiter expected, originalPresent := true,
            timerActive := true, resolved := none, forwarded := acc ++ [x] } := by
      simp [deliver, hx]
    simp only [List.map_cons, List.cons_append, runWait]
    rw [hdel]
    simp only [List.append_eq]
    rw [ih (acc ++ [x]) (fun y hy => hpre y (by simp [hy]))]
    simp

/-- C9: `waitForMessage(expectedType, timeout)` resolves with the first
decoded envelope whose type matches, restoring the previously registered
general callback; if the timeout fires first it resolves with `null` and
de-registers the filter; and every non-matching envelope observed while the
wait is active is forwarded to the general handler registered before the
wait began. -/
theorem C9_waitForMessage (expected : String) (pre : List Message) (m : Message)
    (hpre : ∀ x ∈ pre, typeIs x.type expected = false)
    (hm : typeIs m.type expected = true) :
    (runWait (waitForMessageStart expected true) (pre.map .msg ++ [.msg m])
      = { cb := .original, originalPresent := true, timerActive := false,
          resolved := some (some m), forwarded := pre })
    ∧ (runWait (waitForMessageStart expected true) (pre.map .msg ++ [.timeout])
      = { cb := .original, originalPresent := true, timerActive := false,
          resolved := some none, forwarded := pre }) := by
  constructor
  · rw [show waitForMessageStart expected true
        = { cb := .waiter expected, originalPresent := true, timerActive := true,
            resolved := none, forwarded := ([] : List Message) } from rfl]
    rw [runWait_forwards expected [.msg m] pre [] hpre]
    simp only [List.nil_append, runWait]
    simp [deliver, hm, runWait]
  · rw [show waitForMessageStart expected true
        = { cb := .waiter expected, originalPresent := true, timerActive := true,
            resolved := none, forwarded := ([] : List Message) } from rfl]
    rw [runWait_forwards expected [.timeout] pre [] hpre]
    simp only [List.nil_append, runWait]
    simp [fireTimeout, runWait]

/-- C9 witness: a stray error envelope observed during a wait for
`connect_response` is forwarded to the general handler, and the wait
resolves with the matching response. -/
theorem C9_witness :
    runWait (waitForMessageStart "connect_response" true)
        ([strayError].map .msg ++ [.msg exampleConnectResponse])
      = { cb := .original, originalPresent := true, timerActive := false,
          resolved := some (some exampleConnectResponse), forwarded := [strayError] } :=
  (C9_waitForMessage "connect_response" [strayError] exampleConnectResponse
    (by intro x hx; rw [List.mem_singleton] at hx; subst hx; rfl) rfl).1

end GibberWallet
